import Mathlib

/-
Verification of the MCTS brainstorming core (node.py, mcts.py, utils.py,
creative_directives.py) via a shallow embedding: Python floats are modelled
by exact rationals (and by reals where the code computes log/sqrt), the
mutable tree by a functional rose tree, random draws and collaborator
outcomes by explicit arguments, and raised exceptions by Except/Option.
-/

namespace AIBrainstorm

/-- Python values that can appear in a node's content field: normally a
string, but the generation failure path stores the boolean False (mcts.py:
the retry loops return False and _expand does not check for it). -/
inductive PyVal where
  | str (s : String)
  | bool (b : Bool)
deriving DecidableEq, Repr

/-- The attribute record of node.py's Node class: one field per attribute
set in Node.__init__ and serialized by Node.to_dict. The children list is
kept separately in Tree; the parent pointer is represented by the path from
the root where needed. -/
structure NodeData where
  id : String
  parent_id : Option String
  content : PyVal
  is_problem_statement : Bool
  constraints : Option String
  directive : Option String
  visits : Nat
  score : ℚ
  depth : Nat
  child_number : Nat
deriving DecidableEq, Repr

/-- A node together with its children subtrees. -/
inductive Tree where
  | node (data : NodeData) (children : List Tree)

def Tree.data : Tree → NodeData
  | .node d _ => d

def Tree.children : Tree → List Tree
  | .node _ cs => cs

theorem Tree_data_node (d : NodeData) (cs : List Tree) :
    (Tree.node d cs).data = d := rfl

theorem Tree_children_node (d : NodeData) (cs : List Tree) :
    (Tree.node d cs).children = cs := rfl

/-- Node.QUALITY_THRESHOLD = 0.87. -/
def QUALITY_THRESHOLD : ℚ := 0.87

/-- Node.C_PARAM = 1.414. -/
def C_PARAM : ℚ := 1.414

/-- Node.MAX_DEPTH = 5. -/
def MAX_DEPTH : Nat := 5

/-- Node.MAX_CHILDREN = 5. -/
def MAX_CHILDREN : Nat := 5

/-- Node.get_relative_score. -/
def get_relative_score (d : NodeData) : ℚ :=
  if d.visits = 0 then d.score else d.score / (d.visits : ℚ)

/-- Node.is_terminal: depth at least MAX_DEPTH, or a positive visit count
with average score at least QUALITY_THRESHOLD. -/
def is_terminal (d : NodeData) : Bool :=
  if MAX_DEPTH ≤ d.depth then true
  else if d.visits = 0 then false
  else decide (QUALITY_THRESHOLD ≤ d.score / (d.visits : ℚ))

/-- Node.fully_expanded: len(children) >= MAX_CHILDREN. -/
def fully_expanded (t : Tree) : Bool :=
  decide (MAX_CHILDREN ≤ t.children.length)

/-- random.choice over a list, with the random draw supplied as an index
(reduced modulo the length); dflt is returned only for an empty list, which
the call sites exclude. -/
def pick_from (l : List α) (dflt : α) (k : Nat) : α :=
  l.getD (k % l.length) dflt

/-- The bootstrap loop of Node.best_child (the self.visits == 0 branch):
walk the children keeping the running best raw score (none plays the role
of float("-inf")) and the list of children attaining it; children with zero
visits are skipped. -/
def bootstrap_scan : List Tree → Option ℚ → List Tree → List Tree
  | [], _, best => best
  | c :: cs, best_score, best =>
    if c.data.visits = 0 then bootstrap_scan cs best_score best
    else
      match best_score with
      | none => bootstrap_scan cs (some c.data.score) [c]
      | some b =>
        if b < c.data.score then bootstrap_scan cs (some c.data.score) [c]
        else if c.data.score = b then bootstrap_scan cs (some b) (best ++ [c])
        else bootstrap_scan cs (some b) best

/-- The UCB1 weight computed in Node.best_child for a visited child:
(child.score / child.visits) + C_PARAM * ((2 * log(self.visits) /
child.visits) ** 0.5), float arithmetic modelled over the reals. -/
noncomputable def ucb_weight (parent_visits : Nat) (c : Tree) : ℝ :=
  (c.data.score : ℝ) / (c.data.visits : ℝ)
    + (C_PARAM : ℝ) * Real.sqrt (2 * Real.log (parent_visits : ℝ) / (c.data.visits : ℝ))

/-- choices_weights.index(max(choices_weights)): the first index attaining
the maximum of the list (0 for the empty list, which call sites exclude). -/
noncomputable def argmax_aux : List ℝ → ℝ → Nat → Nat → Nat
  | [], _, _, best_idx => best_idx
  | x :: xs, best_val, cur_idx, best_idx =>
    if best_val < x then argmax_aux xs x (cur_idx + 1) cur_idx
    else argmax_aux xs best_val (cur_idx + 1) best_idx

noncomputable def argmax_idx : List ℝ → Nat
  | [] => 0
  | x :: xs => argmax_aux xs x 1 0

/-- Node.best_child from node.py. The pick argument supplies the index drawn
by random.choice in the randomized branches. Note the source's final line
indexes self.children (the unfiltered list) with an index computed over
choices_weights, which ranges over the visited children only. -/
noncomputable def best_child (t : Tree) (pick : Nat) : Option Tree :=
  match t with
  | .node d cs =>
    if cs.isEmpty then none
    else if d.visits = 0 then
      let best := bootstrap_scan cs none []
      if best.isEmpty then some (pick_from cs (Tree.node d cs) pick)
      else some (pick_from best (Tree.node d cs) pick)
    else
      let weights := (cs.filter (fun c => decide (0 < c.data.visits))).map (ucb_weight d.visits)
      if weights.isEmpty then some (pick_from cs (Tree.node d cs) pick)
      else cs[argmax_idx weights]?

/-- The only exception the embedded controller can raise: the TypeError
produced by MCTS._select's call node.best_child(c_param=self.c_param),
since Node.best_child accepts no c_param argument. -/
inductive SelectError where
  | typeError
deriving DecidableEq, Repr

/-- MCTS._select from mcts.py, returning the path (list of child indexes,
root-relative) of the returned node. The loop body either returns the current
node (terminal, or not fully expanded), returns a uniformly random child with
probability 0.2, or executes node.best_child(c_param=self.c_param): in the
source that call raises TypeError, because Node.best_child takes no c_param
argument, so the loop can never complete a pass that descends; hence a single
random draw and a single choice index suffice. The c_param argument is the
exploration constant the failing call was meant to forward. -/
def mcts_select (c_param : ℚ) (t : Tree) (draw : ℚ) (pick : Nat) :
    Except SelectError (List Nat) :=
  if is_terminal t.data then Except.ok []
  else if fully_expanded t then
    (if draw < 0.2 then Except.ok [pick % t.children.length]
     else Except.error SelectError.typeError)
  else Except.ok []

/-- The 14 directive names of creative_directives.py, in insertion order
(list(CREATIVE_DIRECTIVES.keys())). -/
def CREATIVE_DIRECTIVES : List String :=
  ["Conceptual Blend", "Perspective Shift", "Amplify Extremes",
   "Invert Assumptions", "Temporal Dynamics", "Synaptic Leap",
   "Fractal Thinking", "Empathic Reimagining", "Sensory Transmutation",
   "Quantum Superposition", "Ecosystem Integration", "Narrative Reframing",
   "Adaptive Resilience", "Cross-Pollination"]

/-- max_retries = 2 in MCTS._generate_idea and _generate_idea_from_problem. -/
def MAX_GEN_RETRIES : Nat := 2

/-- The retry loop shared by MCTS._generate_idea and
_generate_idea_from_problem: each entry of attempts is the outcome of one
_get_completion call (some text, or none when it raises); the loop returns
the first success among the first MAX_GEN_RETRIES attempts, and otherwise
returns the Python boolean False, modelled here as none. -/
def generate_idea : Nat → List (Option String) → Option String
  | 0, _ => none
  | _ + 1, [] => none
  | n + 1, a :: rest =>
    match a with
    | some s => some s
    | none => generate_idea n rest

/-- Steps 1 and 2 of MCTS._expand: the creative directives not yet used by
the node's direct children, in catalog order. -/
def available_directives (t : Tree) : List String :=
  let used := t.children.map (fun c => c.data.directive)
  CREATIVE_DIRECTIVES.filter (fun d => decide (some d ∉ used))

/-- MCTS._expand: pick an unused directive at random, run the generator's
retry loop, then build a child Node and append it to the node's children.
When the retry budget is exhausted the generation call returns Python False;
the source does not check for that, so a child whose content is the boolean
False is still created and appended. none (Python None) is returned only
when no directive is available. -/
def mcts_expand (t : Tree) (dir_pick : Nat) (attempts : List (Option String))
    (fresh_id : String) : Option Tree :=
  if available_directives t = [] then none
  else
    let dir := pick_from (available_directives t) "" dir_pick
    let content := match generate_idea MAX_GEN_RETRIES attempts with
      | some s => PyVal.str s
      | none => PyVal.bool false
    some (Tree.node t.data (t.children ++
      [Tree.node
        { id := fresh_id
          parent_id := some t.data.id
          content := content
          is_problem_statement := false
          constraints := none
          directive := some dir
          visits := 0
          score := 0
          depth := t.data.depth + 1
          child_number := t.children.length + 1 } []]))

/-- Replace the element at an index of a list, leaving the list unchanged
when the index is out of range. -/
def update_at : List α → Nat → (α → α) → List α
  | [], _, _ => []
  | c :: cs, 0, f => f c :: cs
  | c :: cs, n + 1, f => c :: update_at cs n f

/-- One step of MCTS._backpropagate on a node's statistics. -/
def bump (s : ℚ) (d : NodeData) : NodeData :=
  { d with visits := d.visits + 1, score := d.score + s }

/-- MCTS._backpropagate: starting from the node at the given path, add 1 to
visits and s to score on it and on every ancestor up to the root inclusive;
the path runs root-to-node, mirroring the source's parent-pointer walk from
the node to the root. -/
def backpropagate (s : ℚ) : Tree → List Nat → Tree
  | Tree.node d cs, [] => Tree.node (bump s d) cs
  | Tree.node d cs, i :: p =>
    Tree.node (bump s d) (update_at cs i (fun c => backpropagate s c p))

/-- The data of the node at a path, or none when the path leaves the tree. -/
def data_at : Tree → List Nat → Option NodeData
  | Tree.node d _, [] => some d
  | Tree.node _ cs, i :: p =>
    match cs[i]? with
    | some c => data_at c p
    | none => none

/-- The subtree at a path (returning the current subtree when an index is
out of range; valid paths never hit that case). -/
def node_at : Tree → List Nat → Tree
  | t, [] => t
  | Tree.node d cs, i :: p =>
    match cs[i]? with
    | some c => node_at c p
    | none => Tree.node d cs

def valid_path (t : Tree) (p : List Nat) : Bool :=
  (data_at t p).isSome

/-- Replace the subtree at a path. -/
def modify_at : Tree → List Nat → (Tree → Tree) → Tree
  | t, [], f => f t
  | Tree.node d cs, i :: p, f =>
    Tree.node d (update_at cs i (fun c => modify_at c p f))

/-- MCTS._simulate: a problem-statement node scores the fixed 0.5, any other
node gets the external evaluator's score, which is a collaborator outcome
and therefore passed in as an argument. -/
def simulate (d : NodeData) (eval_score : ℚ) : ℚ :=
  if d.is_problem_statement then 0.5 else eval_score

/-- One main-loop iteration of MCTS.run: _select from the root, the 5%
forced-root override, the terminal check, then _expand, _simulate and
_backpropagate. Random draws and collaborator outcomes are arguments;
printing, pacing sleeps and the JSON snapshot do not affect the tree. -/
def run_iteration (root : Tree) (c_param : ℚ) (sel_draw : ℚ) (sel_pick : Nat)
    (root_draw : ℚ) (dir_pick : Nat) (attempts : List (Option String))
    (fresh_id : String) (eval_score : ℚ) : Except SelectError Tree :=
  match mcts_select c_param root sel_draw sel_pick with
  | Except.error e => Except.error e
  | Except.ok p0 =>
    let p := if root_draw < 0.05 then [] else p0
    let n := node_at root p
    if is_terminal n.data then Except.ok root
    else
      match mcts_expand n dir_pick attempts fresh_id with
      | none => Except.ok root
      | some n2 =>
        let root2 := modify_at root p (fun _ => n2)
        let child_path := p ++ [n.children.length]
        let s := simulate (node_at root2 child_path).data eval_score
        Except.ok (backpropagate s root2 child_path)

/-- Node._prune_child over the receiver's children list: check each child's
id, deleting the first match together with its whole subtree, otherwise
recursing into that child before moving to the next sibling. A some result
corresponds to Python True (a deletion happened), none to False. -/
def prune_child : List Tree → String → Option (List Tree)
  | [], _ => none
  | Tree.node d cs :: rest, i =>
    if d.id = i then some rest
    else
      match prune_child cs i with
      | some cs2 => some (Tree.node d cs2 :: rest)
      | none =>
        match prune_child rest i with
        | some rest2 => some (Tree.node d cs :: rest2)
        | none => none

/-- Node.prune_node_by_id: pruning the root is rejected up front; otherwise
prune within the children. Returns the Python bool together with the
(possibly updated) tree. -/
def prune_node_by_id (t : Tree) (i : String) : Bool × Tree :=
  if t.data.id = i then (false, t)
  else
    match prune_child t.children i with
    | some cs2 => (true, Tree.node t.data cs2)
    | none => (false, t)

/-- All node records of a forest in depth-first preorder, the order in which
Node._prune_child visits them. -/
def flatten_forest : List Tree → List NodeData
  | [] => []
  | Tree.node d cs :: rest => d :: (flatten_forest cs ++ flatten_forest rest)

def flatten (t : Tree) : List NodeData :=
  match t with
  | Tree.node d cs => d :: flatten_forest cs

/-- The JSON object written by utils.save_tree_to_json: Node.to_dict's
fields plus the recursively serialized children. to_dict copies every
NodeData field, so the payload is a NodeData. -/
inductive JsonTree where
  | node (data : NodeData) (children : List JsonTree)

def save_forest : List Tree → List JsonTree
  | [] => []
  | Tree.node d cs :: rest => JsonTree.node d (save_forest cs) :: save_forest rest

/-- utils.save_tree_to_json (its node_to_dict recursion; the file write is
the persistence sink). -/
def save_tree (t : Tree) : JsonTree :=
  match t with
  | Tree.node d cs => JsonTree.node d (save_forest cs)

/-- What utils.load_tree_from_json's dict_to_node keeps of a stored record:
content, is_problem_statement, directive, constraints and id come from the
dict; depth, visits and score are overwritten from the dict after
construction; parent_id and child_number however are recomputed by the Node
constructor from the parent argument and from the number of already-appended
siblings (k is the 0-based position among the siblings). -/
def reparent (d : NodeData) (pid : Option String) (k : Nat) : NodeData :=
  { d with
    parent_id := pid
    child_number := match pid with | some _ => k + 1 | none => 0 }

def load_forest (pid : String) (k : Nat) : List JsonTree → List Tree
  | [] => []
  | JsonTree.node d js :: rest =>
    Tree.node (reparent d (some pid) k) (load_forest d.id 0 js)
      :: load_forest pid (k + 1) rest

/-- utils.load_tree_from_json (dict_to_node applied to the root dict with
parent=None). -/
def load_tree (j : JsonTree) : Tree :=
  match j with
  | JsonTree.node d js => Tree.node (reparent d none 0) (load_forest d.id 0 js)

/-- Canonical position attributes: parent_id is the actual parent's id and
child_number the 1-based position among the siblings (0 at the root), as the
Node constructor assigns them at creation time, before any pruning. -/
def wf_forest (pid : String) (k : Nat) : List Tree → Bool
  | [] => true
  | Tree.node d cs :: rest =>
    decide (d.parent_id = some pid) && decide (d.child_number = k + 1)
      && wf_forest d.id 0 cs && wf_forest pid (k + 1) rest

def wf_tree (t : Tree) : Bool :=
  match t with
  | Tree.node d cs =>
    decide (d.parent_id = none) && decide (d.child_number = 0) && wf_forest d.id 0 cs

/-- Shorthand for building node records in the concrete examples. -/
def mkData (i : String) (pid : Option String) (dir : Option String) (v : Nat)
    (s : ℚ) (dep : Nat) (cn : Nat) (ips : Bool) : NodeData :=
  { id := i
    parent_id := pid
    content := PyVal.str i
    is_problem_statement := ips
    constraints := none
    directive := dir
    visits := v
    score := s
    depth := dep
    child_number := cn }

/-- An unvisited child sitting before a visited sibling. -/
def ucb_c0 : Tree :=
  Tree.node (mkData "c0" (some "n") (some "Conceptual Blend") 0 0 1 1 false) []

def ucb_c1 : Tree :=
  Tree.node (mkData "c1" (some "n") (some "Perspective Shift") 1 1 1 2 false) []

/-- A visited parent whose first child is unvisited and second is visited. -/
def ucb_parent : Tree :=
  Tree.node (mkData "n" none none 1 (1/2) 0 0 false) [ucb_c0, ucb_c1]

/-- Claim C1: for a node with visits > 0 the UCB1 branch of best_child is
claimed never to return a zero-visit child while some child has visits > 0.
The source violates this: choices_weights ranges over the visited children
only, but its argmax index is applied to the unfiltered children list, so at
ucb_parent (visits 1; children: c0 unvisited, c1 visited) the UCB1 branch
returns c0 even though c1 has visits > 0. -/
theorem C1_ucb_returns_unvisited_child :
    best_child ucb_parent 0 = some ucb_c0 ∧
    ucb_c0.data.visits = 0 ∧
    ucb_c1 ∈ ucb_parent.children ∧
    0 < ucb_c1.data.visits ∧
    0 < ucb_parent.data.visits := by
  refine ⟨rfl, rfl, ?_, by decide, by decide⟩
  show ucb_c1 ∈ [ucb_c0, ucb_c1]
  exact List.mem_cons_of_mem _ (List.mem_singleton.mpr rfl)

/-- A node with one used directive and no other children. -/
def expand_leaf : Tree :=
  Tree.node (mkData "n1" (some "r") (some "Conceptual Blend") 1 (3/10) 1 1 false) []

/-- Claim C2: exhausting the generator's retry budget is claimed to leave the
tree unchanged with no child appended. The source violates this: the retry
loop returns Python False, _expand never checks the result, so a child whose
content is the boolean False is built and appended, and _expand returns it
(some ...) rather than None. -/
theorem C2_failed_generation_appends_false_child :
    (mcts_expand expand_leaf 0 [none, none] "cX").map
        (fun t => t.children.map (fun c => c.data.content)) =
      some [PyVal.bool false] ∧
    generate_idea MAX_GEN_RETRIES [none, none] = none := by
  exact ⟨rfl, rfl⟩

def full_child1 : Tree :=
  Tree.node (mkData "c1" (some "r") (some "Conceptual Blend") 1 (1/2) 1 1 false) []

def full_child2 : Tree :=
  Tree.node (mkData "c2" (some "r") (some "Perspective Shift") 1 (1/2) 1 2 false) []

def full_child3 : Tree :=
  Tree.node (mkData "c3" (some "r") (some "Amplify Extremes") 1 (1/2) 1 3 false) []

def full_child4 : Tree :=
  Tree.node (mkData "c4" (some "r") (some "Invert Assumptions") 1 (1/2) 1 4 false) []

def full_child5 : Tree :=
  Tree.node (mkData "c5" (some "r") (some "Temporal Dynamics") 1 (1/2) 1 5 false) []

/-- A non-terminal, fully expanded root with positive visits: the state the
main loop reaches right after the bootstrap phase. -/
def full_root : Tree :=
  Tree.node (mkData "r" none none 6 3 0 0 true)
    [full_child1, full_child2, full_child3, full_child4, full_child5]

theorem full_root_not_terminal : is_terminal full_root.data = false := by
  simp [is_terminal, full_root, mkData, Tree.data, MAX_DEPTH, QUALITY_THRESHOLD]
  norm_num

theorem full_root_fully_expanded : fully_expanded full_root = true := rfl

theorem select_full_root_random (pick : Nat) :
    mcts_select 1.414 full_root (1/10) pick = Except.ok [pick % 5] := by
  have hd : ((1 : ℚ)/10) < 0.2 := by norm_num
  simp only [mcts_select, full_root_not_terminal, full_root_fully_expanded,
    Bool.false_eq_true, if_false, if_true, hd, if_pos]
  rfl

/-- Claim C5: whenever the descent picks the next node via the Selection
Policy at a node with visits > 0, the chosen child is claimed to maximize the
UCB1 value with the configured exploration constant. The source can never do
so: _select's call node.best_child(c_param=self.c_param) raises TypeError
(Node.best_child accepts no c_param argument), so at a non-terminal, fully
expanded node with positive visits the select step errors instead of
choosing any child. -/
theorem C5_select_type_error :
    mcts_select 1.414 full_root (1/2) 0 = Except.error SelectError.typeError ∧
    fully_expanded full_root = true ∧
    is_terminal full_root.data = false ∧
    0 < full_root.data.visits := by
  have hd : ¬ (((1 : ℚ)/2) < 0.2) := by norm_num
  refine ⟨?_, rfl, full_root_not_terminal, by decide⟩
  simp only [mcts_select, full_root_not_terminal, full_root_fully_expanded,
    Bool.false_eq_true, if_false, if_true, hd, if_pos]

/-- Claim C6 (counterexample): from the non-terminal, fully expanded node
full_root, the next node on the descent is not determined by the Selection
Policy: with the same tree and the same draw, two different random choice
indexes make _select return two different children via its 20% random
branch, which the claim does not allow (the only deviation it grants is the
5% forced-root override). -/
theorem C6_random_branch_counterexample :
    mcts_select 1.414 full_root (1/10) 2 = Except.ok [2] ∧
    mcts_select 1.414 full_root (1/10) 0 = Except.ok [0] ∧
    ([2] : List Nat) ≠ [0] ∧
    is_terminal full_root.data = false ∧
    fully_expanded full_root = true := by
  refine ⟨select_full_root_random 2, select_full_root_random 0, by decide,
    full_root_not_terminal, rfl⟩

/-- Claim C6 (amended): a successful _select returns either the start node
itself (path []) or, exactly when the 20% random branch fires (draw < 0.2),
a uniformly random direct child; the descent never advances through the
Selection Policy, whose invocation raises TypeError instead. -/
theorem C6_descent_never_uses_policy (c : ℚ) (t : Tree) (draw : ℚ) (pick : Nat)
    (q : List Nat) (h : mcts_select c t draw pick = Except.ok q) :
    q = [] ∨ (draw < 0.2 ∧ q = [pick % t.children.length]) := by
  unfold mcts_select at h
  by_cases h1 : is_terminal t.data = true
  · rw [if_pos h1] at h
    exact Or.inl (Except.ok.inj h).symm
  · rw [if_neg h1] at h
    by_cases h2 : fully_expanded t = true
    · rw [if_pos h2] at h
      by_cases h3 : draw < 0.2
      · rw [if_pos h3] at h
        exact Or.inr ⟨h3, (Except.ok.inj h).symm⟩
      · rw [if_neg h3] at h
        exact absurd h (by simp)
    · rw [if_neg h2] at h
      exact Or.inl (Except.ok.inj h).symm

theorem C6_descent_never_uses_policy_witness :
    ([2] : List Nat) = [] ∨
      ((1/10 : ℚ) < 0.2 ∧ [2] = [2 % full_root.children.length]) :=
  C6_descent_never_uses_policy 1.414 full_root (1/10) 2 [2]
    (select_full_root_random 2)

def full_new_child : Tree :=
  Tree.node
    { id := "c6"
      parent_id := some "r"
      content := PyVal.str "idea"
      is_problem_statement := false
      constraints := none
      directive := some "Synaptic Leap"
      visits := 0
      score := 0
      depth := 1
      child_number := 6 } []

theorem full_root_children :
    full_root.children =
      [full_child1, full_child2, full_child3, full_child4, full_child5] := rfl

theorem expand_full_root :
    mcts_expand full_root 0 [some "idea"] "c6" =
      some (Tree.node full_root.data (full_root.children ++ [full_new_child])) := rfl

theorem update_at_length (l : List α) (i : Nat) (f : α → α) :
    (update_at l i f).length = l.length := by
  induction l generalizing i with
  | nil => rfl
  | cons c cs ih =>
    cases i with
    | zero => rfl
    | succ n => simp [update_at, ih]

/-- Claim C4 (counterexample): the children bound MAX_CHILDREN = 5 is claimed
to hold in every reachable state, including under the 5% forced-root
selection, and expansion is claimed never to be attempted at a fully expanded
node. Starting from full_root (fully expanded, non-terminal), one main-loop
iteration in which the in-select 20% draw fires (avoiding the TypeError) and
the 5% forced-root draw fires expands the root anyway: nine directives are
still unused, so a sixth child is appended. -/
theorem C4_sixth_child_counterexample :
    (run_iteration full_root 1.414 (1/10) 0 (1/100) 0 [some "idea"] "c6"
        (1/2)).map (fun t => t.children.length) = Except.ok 6 ∧
    fully_expanded full_root = true ∧
    is_terminal full_root.data = false ∧
    MAX_CHILDREN = 5 := by
  have h05 : ((1 : ℚ)/100) < 0.05 := by norm_num
  refine ⟨?_, rfl, full_root_not_terminal, rfl⟩
  unfold run_iteration
  rw [select_full_root_random 0]
  norm_num [node_at, full_root_not_terminal, expand_full_root, modify_at,
    backpropagate, update_at_length, full_root_children, Tree_children_node,
    simulate, full_new_child, Except.map]

/-- Claim C7: is_terminal holds exactly when depth ≥ MAX_DEPTH, or visits > 0
and the average score reaches QUALITY_THRESHOLD; in particular a node with
visits 3 and score 2.7 below MAX_DEPTH is terminal, one with score 2.4 is
not, and a zero-visit node below MAX_DEPTH is never terminal. -/
theorem C7_is_terminal_spec :
    (∀ d : NodeData, is_terminal d = true ↔
        (MAX_DEPTH ≤ d.depth ∨
          (0 < d.visits ∧ QUALITY_THRESHOLD ≤ d.score / (d.visits : ℚ)))) ∧
    (∀ k : Nat, k < MAX_DEPTH →
        is_terminal (mkData "n" none none 3 (27/10) k 0 false) = true ∧
        is_terminal (mkData "n" none none 3 (24/10) k 0 false) = false) ∧
    (∀ d : NodeData, d.visits = 0 → d.depth < MAX_DEPTH →
        is_terminal d = false) := by
  refine ⟨?_, ?_, ?_⟩
  · intro d
    unfold is_terminal
    by_cases h1 : MAX_DEPTH ≤ d.depth
    · simp [h1]
    · rw [if_neg h1]
      by_cases h2 : d.visits = 0
      · simp [h1, h2]
      · simp [h1, h2, Nat.pos_of_ne_zero h2]
  · intro k hk
    have h1 : ¬ (MAX_DEPTH ≤ k) := Nat.not_le.mpr hk
    constructor
    · simp [is_terminal, mkData, h1]
      norm_num [QUALITY_THRESHOLD]
    · simp [is_terminal, mkData, h1]
      norm_num [QUALITY_THRESHOLD]
  · intro d h0 hd
    simp [is_terminal, Nat.not_le.mpr hd, h0]

theorem C7_is_terminal_spec_witness :
    (2 < MAX_DEPTH ∧
      is_terminal (mkData "n" none none 3 (27/10) 2 0 false) = true ∧
      is_terminal (mkData "n" none none 3 (24/10) 2 0 false) = false) ∧
    ((mkData "z" none none 0 0 2 0 false).visits = 0 ∧
      (mkData "z" none none 0 0 2 0 false).depth < MAX_DEPTH ∧
      is_terminal (mkData "z" none none 0 0 2 0 false) = false) :=
  ⟨⟨by decide, (C7_is_terminal_spec.2.1 2 (by decide)).1,
      (C7_is_terminal_spec.2.1 2 (by decide)).2⟩,
    rfl, by decide,
    C7_is_terminal_spec.2.2 (mkData "z" none none 0 0 2 0 false) rfl (by decide)⟩

theorem pick_from_mem (l : List α) (dflt : α) (k : Nat) (h : l ≠ []) :
    pick_from l dflt k ∈ l := by
  have hl : 0 < l.length := List.length_pos.mpr h
  have hk : k % l.length < l.length := Nat.mod_lt _ hl
  unfold pick_from
  rw [List.getD_eq_getElem l dflt hk]
  exact List.getElem_mem hk

theorem expand_leaf_not_terminal : is_terminal expand_leaf.data = false := by
  simp [is_terminal, expand_leaf, mkData, Tree.data, MAX_DEPTH, QUALITY_THRESHOLD]
  norm_num

theorem select_expand_leaf :
    mcts_select 1.414 expand_leaf (1/2) 0 = Except.ok [] := by
  simp [mcts_select, expand_leaf_not_terminal, fully_expanded, expand_leaf,
    Tree.children, mkData, MAX_CHILDREN]

/-- Claim C4 (amended): what survives of the claim. First, _select's normal
stopping rule is sound: when _select returns the start node itself (path [])
and that node is not terminal, it is not fully expanded — so expansion
reached through the stopping rule respects the bound. Second, _expand only
ever appends a child carrying a catalog directive unused among its siblings,
so a node whose children carry pairwise-distinct catalog directives stays
within the catalog size (14 = CREATIVE_DIRECTIVES.length). The original
MAX_CHILDREN = 5 bound is violated through the 5% forced-root override and
the in-select 20% random branch (see the counterexample). -/
theorem C4_amended_bounds :
    (∀ (c : ℚ) (t : Tree) (draw : ℚ) (pick : Nat),
        mcts_select c t draw pick = Except.ok [] →
        is_terminal t.data = false → fully_expanded t = false) ∧
    (∀ (t : Tree) (k : Nat) (g : List (Option String)) (i : String) (t2 : Tree),
        mcts_expand t k g i = some t2 →
        (t.children.map (fun c => c.data.directive)).Nodup →
        t.children.map (fun c => c.data.directive) ⊆ CREATIVE_DIRECTIVES.map some →
        t2.children.length ≤ CREATIVE_DIRECTIVES.length) := by
  constructor
  · intro c t draw pick hsel hterm
    unfold mcts_select at hsel
    rw [hterm] at hsel
    simp only [Bool.false_eq_true, if_false] at hsel
    by_cases h2 : fully_expanded t = true
    · rw [if_pos h2] at hsel
      by_cases h3 : draw < 0.2
      · rw [if_pos h3] at hsel
        simp at hsel
      · rw [if_neg h3] at hsel
        exact absurd hsel (by simp)
    · simpa using h2
  · intro t k g i t2 hexp hnodup hsub
    by_cases hav : available_directives t = []
    · rw [mcts_expand, if_pos hav] at hexp
      exact absurd hexp (by simp)
    · rw [mcts_expand, if_neg hav] at hexp
      have ht2 := (Option.some.inj hexp).symm
      have hdir_mem : pick_from (available_directives t) "" k ∈
          available_directives t := pick_from_mem _ _ _ hav
      have hdir_cat : pick_from (available_directives t) "" k ∈
          CREATIVE_DIRECTIVES :=
        (List.mem_filter.mp hdir_mem).1
      have hdir_unused : some (pick_from (available_directives t) "" k) ∉
          t.children.map (fun c => c.data.directive) := by
        have := (List.mem_filter.mp hdir_mem).2
        simpa using this
      have hlen : (t.children.map (fun c => c.data.directive) ++
            [some (pick_from (available_directives t) "" k)]).length ≤
          (CREATIVE_DIRECTIVES.map some).length := by
        refine List.Subperm.length_le (List.Nodup.subperm ?_ ?_)
        · simp [List.nodup_append, hnodup, hdir_unused]
        · intro x hx
          rcases List.mem_append.mp hx with hx | hx
          · exact hsub hx
          · rcases List.mem_singleton.mp hx with rfl
            exact List.mem_map_of_mem _ hdir_cat
      rw [ht2, Tree_children_node, List.length_append]
      simpa using hlen

/-- The child appended by mcts_expand at expand_leaf in the witness below. -/
def exp_child : Tree :=
  Tree.node
    { id := "cY"
      parent_id := some "n1"
      content := PyVal.str "x"
      is_problem_statement := false
      constraints := none
      directive := some "Conceptual Blend"
      visits := 0
      score := 0
      depth := 2
      child_number := 1 } []

theorem C4_amended_bounds_witness :
    (mcts_select 1.414 expand_leaf (1/2) 0 = Except.ok [] ∧
      is_terminal expand_leaf.data = false ∧
      fully_expanded expand_leaf = false) ∧
    (mcts_expand expand_leaf 0 [some "x"] "cY" =
        some (Tree.node expand_leaf.data [exp_child]) ∧
      (Tree.node expand_leaf.data [exp_child]).children.length ≤
        CREATIVE_DIRECTIVES.length) :=
  ⟨⟨select_expand_leaf, expand_leaf_not_terminal,
      C4_amended_bounds.1 1.414 expand_leaf (1/2) 0 select_expand_leaf
        expand_leaf_not_terminal⟩,
    rfl,
    C4_amended_bounds.2 expand_leaf 0 [some "x"] "cY" _ rfl
      (by simp [expand_leaf, Tree.children])
      (by simp [expand_leaf, Tree.children])⟩

theorem update_at_getElem_self (l : List α) (i : Nat) (f : α → α) :
    (update_at l i f)[i]? = (l[i]?).map f := by
  induction l generalizing i with
  | nil => simp [update_at]
  | cons c cs ih =>
    cases i with
    | zero => simp [update_at]
    | succ n => simp [update_at, ih]

theorem update_at_getElem_ne (l : List α) (i j : Nat) (f : α → α)
    (h : j ≠ i) : (update_at l i f)[j]? = l[j]? := by
  induction l generalizing i j with
  | nil => simp [update_at]
  | cons c cs ih =>
    cases i with
    | zero =>
      cases j with
      | zero => exact absurd rfl h
      | succ m => simp [update_at]
    | succ n =>
      cases j with
      | zero => simp [update_at]
      | succ m =>
        have hmn : m ≠ n := fun hh => h (by rw [hh])
        simp [update_at, ih _ _ hmn]

/-- Claim C8: backpropagating a score s from the node at a valid path bumps
visits by exactly 1 and score by exactly s at that node and at each of its
ancestors up to and including the root — exactly the nodes at the prefixes of
the path — and leaves the data of every other node unchanged. -/
theorem C8_backpropagate_spec (t : Tree) (p : List Nat) (s : ℚ)
    (hp : valid_path t p = true) (q : List Nat) :
    data_at (backpropagate s t p) q =
      if q <+: p then (data_at t q).map (bump s) else data_at t q := by
  induction p generalizing t q with
  | nil =>
    obtain ⟨d, cs⟩ := t
    cases q with
    | nil => simp [backpropagate, data_at]
    | cons j q2 => simp [backpropagate, data_at]
  | cons i p2 ih =>
    obtain ⟨d, cs⟩ := t
    rcases hc : cs[i]? with _ | c
    · exfalso
      simp [valid_path, data_at, hc] at hp
    · have hp2 : valid_path c p2 = true := by
        simpa [valid_path, data_at, hc] using hp
      cases q with
      | nil => simp [backpropagate, data_at]
      | cons j q2 =>
        by_cases hj : j = i
        · subst hj
          rw [backpropagate]
          rw [data_at, update_at_getElem_self, hc]
          rw [data_at, hc]
          simp only [Option.map_some, List.cons_prefix_cons, true_and]
          have := ih c hp2 q2
          simpa using this
        · rw [backpropagate]
          rw [data_at, update_at_getElem_ne _ _ _ _ hj]
          rw [data_at]
          have : ¬ ((j :: q2) <+: (i :: p2)) := by
            rw [List.cons_prefix_cons]
            exact fun hcon => hj hcon.1
          rw [if_neg this]

theorem C8_backpropagate_spec_witness :
    valid_path full_root [0] = true ∧
    data_at (backpropagate (1/2) full_root [0]) [1] =
      (if [1] <+: [0]
        then (data_at full_root [1]).map (bump (1/2))
        else data_at full_root [1]) :=
  ⟨rfl, C8_backpropagate_spec full_root [0] (1/2) rfl [1]⟩

theorem data_mem_flatten (t : Tree) : t.data ∈ flatten t := by
  obtain ⟨d, cs⟩ := t
  simp [flatten, Tree.data]

theorem prune_child_none_spec (cs : List Tree) (i : String) :
    prune_child cs i = none → ∀ d ∈ flatten_forest cs, d.id ≠ i := by
  induction cs, i using prune_child.induct with
  | case1 i =>
    intro _ x hx
    simp [flatten_forest] at hx
  | case2 d cs rest =>
    intro h
    simp [prune_child] at h
  | case3 d cs rest i hne rest2 hcs ih =>
    intro h
    simp [prune_child, hne, hcs] at h
  | case4 d cs rest i hne hcs rest2 hrest ihcs ihrest =>
    intro h
    simp [prune_child, hne, hcs, hrest] at h
  | case5 d cs rest i hne hcs hrest ihcs ihrest =>
    intro _ x hx
    rw [flatten_forest] at hx
    rcases List.mem_cons.mp hx with rfl | hx2
    · exact hne
    · rcases List.mem_append.mp hx2 with h1 | h2
      · exact ihcs hcs x h1
      · exact ihrest hrest x h2

theorem prune_child_some_spec (cs : List Tree) (i : String) :
    ∀ cs2, prune_child cs i = some cs2 →
      ∃ pre sub post,
        flatten_forest cs = pre ++ flatten sub ++ post ∧
        sub.data.id = i ∧
        (∀ d ∈ pre, d.id ≠ i) ∧
        flatten_forest cs2 = pre ++ post := by
  induction cs, i using prune_child.induct with
  | case1 i =>
    intro cs2 h
    simp [prune_child] at h
  | case2 d cs rest =>
    intro cs2 h
    rw [prune_child, if_pos rfl] at h
    refine ⟨[], Tree.node d cs, flatten_forest rest, ?_, rfl, by simp, ?_⟩
    · simp [flatten_forest, flatten]
    · rw [← Option.some.inj h]
      simp
  | case3 d cs rest i hne rest2 hcs ih =>
    intro cs2 h
    rw [prune_child, if_neg hne, hcs] at h
    obtain ⟨pre, sub, post, h1, h2, h3, h4⟩ := ih rest2 hcs
    refine ⟨d :: pre, sub, post ++ flatten_forest rest, ?_, h2, ?_, ?_⟩
    · simp [flatten_forest, h1, List.append_assoc]
    · intro x hx
      rcases List.mem_cons.mp hx with rfl | hx2
      · exact hne
      · exact h3 x hx2
    · rw [← Option.some.inj h]
      simp [flatten_forest, h4, List.append_assoc]
  | case4 d cs rest i hne hcs rest2 hrest ihcs ihrest =>
    intro cs2 h
    rw [prune_child, if_neg hne, hcs, hrest] at h
    obtain ⟨pre, sub, post, h1, h2, h3, h4⟩ := ihrest rest2 hrest
    have hno := prune_child_none_spec cs i hcs
    refine ⟨d :: (flatten_forest cs ++ pre), sub, post, ?_, h2, ?_, ?_⟩
    · simp [flatten_forest, h1, List.append_assoc]
    · intro x hx
      rcases List.mem_cons.mp hx with rfl | hx2
      · exact hne
      · rcases List.mem_append.mp hx2 with hcs2 | hpre
        · exact hno x hcs2
        · exact h3 x hpre
    · rw [← Option.some.inj h]
      simp [flatten_forest, h4, List.append_assoc]
  | case5 d cs rest i hne hcs hrest ihcs ihrest =>
    intro cs2 h
    rw [prune_child, if_neg hne, hcs, hrest] at h
    exact Option.noConfusion h

/-- Claim C9: prune_node_by_id returns false and leaves the tree unchanged
when the id is the root's or occurs nowhere; when a non-root node with that
id exists, it returns true and detaches exactly the first depth-first match
together with its whole subtree: the preorder listing splits as
pre ++ flatten sub ++ post with no match in pre, and the result's preorder
listing is exactly pre ++ post. -/
theorem C9_prune_spec (t : Tree) (i : String) :
    (i = t.data.id → prune_node_by_id t i = (false, t)) ∧
    (i ∉ (flatten t).map NodeData.id → prune_node_by_id t i = (false, t)) ∧
    (i ≠ t.data.id → i ∈ (flatten t).map NodeData.id →
      ∃ pre sub post,
        flatten t = pre ++ flatten sub ++ post ∧
        sub.data.id = i ∧
        (∀ d ∈ pre, d.id ≠ i) ∧
        (prune_node_by_id t i).1 = true ∧
        flatten (prune_node_by_id t i).2 = pre ++ post) := by
  obtain ⟨d, cs⟩ := t
  refine ⟨?_, ?_, ?_⟩
  · intro h
    rw [prune_node_by_id]
    simp only [Tree_data_node, Tree_children_node]
    rw [if_pos (show d.id = i from h.symm)]
  · intro h
    have hne : ¬ d.id = i := by
      intro he
      apply h
      simp [flatten, he]
    have hforest : prune_child cs i = none := by
      rcases hp : prune_child cs i with _ | cs2
      · rfl
      · exfalso
        obtain ⟨pre, sub, post, h1, h2, _, _⟩ :=
          prune_child_some_spec cs i cs2 hp
        apply h
        have hmem : sub.data ∈ flatten_forest cs := by
          rw [h1]
          simp [data_mem_flatten sub]
        have hmem3 : i ∈ (flatten_forest cs).map NodeData.id := by
          rw [← h2]
          exact List.mem_map_of_mem NodeData.id hmem
        simp only [flatten, List.map_cons, List.mem_cons]
        exact Or.inr hmem3
    rw [prune_node_by_id]
    simp only [Tree_data_node, Tree_children_node]
    rw [if_neg hne, hforest]
  · intro hne hmem
    have hne2 : ¬ d.id = i := fun he => hne (by simp [Tree.data, he])
    have hmem2 : i ∈ (flatten_forest cs).map NodeData.id := by
      simp only [flatten, List.map_cons, List.mem_cons] at hmem
      rcases hmem with he | hm
      · exact absurd he.symm hne2
      · exact hm
    rcases hp : prune_child cs i with _ | cs2
    · exfalso
      obtain ⟨x, hx, hxid⟩ := List.mem_map.mp hmem2
      exact prune_child_none_spec cs i hp x hx hxid
    · obtain ⟨pre, sub, post, h1, h2, h3, h4⟩ :=
        prune_child_some_spec cs i cs2 hp
      refine ⟨d :: pre, sub, post, ?_, h2, ?_, ?_, ?_⟩
      · simp [flatten, h1]
      · intro x hx
        rcases List.mem_cons.mp hx with rfl | hx2
        · exact hne2
        · exact h3 x hx2
      · rw [prune_node_by_id]
        simp only [Tree_data_node, Tree_children_node]
        rw [if_neg hne2, hp]
      · rw [prune_node_by_id]
        simp only [Tree_data_node, Tree_children_node]
        rw [if_neg hne2, hp]
        simp [flatten, h4]

def prune_b : Tree :=
  Tree.node (mkData "b" (some "a") none 1 (1/2) 2 1 false) []

def prune_a : Tree :=
  Tree.node (mkData "a" (some "r") (some "Conceptual Blend") 2 1 1 1 false)
    [prune_b]

def prune_c : Tree :=
  Tree.node (mkData "c" (some "r") (some "Perspective Shift") 1 (1/2) 1 2 false) []

def prune_root : Tree :=
  Tree.node (mkData "r" none none 3 (3/2) 0 0 true) [prune_a, prune_c]

theorem C9_prune_spec_witness :
    ∃ pre sub post,
      flatten prune_root = pre ++ flatten sub ++ post ∧
      sub.data.id = "b" ∧
      (∀ d ∈ pre, d.id ≠ "b") ∧
      (prune_node_by_id prune_root "b").1 = true ∧
      flatten (prune_node_by_id prune_root "b").2 = pre ++ post :=
  (C9_prune_spec prune_root "b").2.2
    (by simp [prune_root, Tree.data, mkData])
    (by simp [flatten, flatten_forest, prune_root, prune_a, prune_b, prune_c,
      mkData])

/-- Claim C10: a successful prune only removes nodes: the preorder listing of
the resulting tree is a sublist of the original one, so every remaining
node keeps its full attribute record — in particular the ancestors keep the
visits and score previously backpropagated through the pruned subtree, and
the remaining siblings keep their original child_number. -/
theorem C10_prune_frame (t : Tree) (i : String) (t2 : Tree)
    (h : prune_node_by_id t i = (true, t2)) :
    (flatten t2).Sublist (flatten t) := by
  obtain ⟨d, cs⟩ := t
  rw [prune_node_by_id] at h
  simp only [Tree_data_node, Tree_children_node] at h
  by_cases hid : d.id = i
  · rw [if_pos hid] at h
    exact absurd h (by simp)
  · rw [if_neg hid] at h
    rcases hp : prune_child cs i with _ | cs2
    · rw [hp] at h
      exact absurd h (by simp)
    · rw [hp] at h
      have ht2 : t2 = Tree.node d cs2 := ((Prod.mk.injEq _ _ _ _).mp h).2.symm
      subst ht2
      obtain ⟨pre, sub, post, h1, _, _, h4⟩ :=
        prune_child_some_spec cs i cs2 hp
      simp only [flatten, h1, h4]
      refine List.Sublist.cons₂ d ?_
      have hpost : post.Sublist (flatten sub ++ post) :=
        List.sublist_append_right _ _
      simpa [List.append_assoc] using hpost.append_left pre

/-- The tree prune_root with the subtree of node b removed. -/
def prune_root_after : Tree :=
  Tree.node (mkData "r" none none 3 (3/2) 0 0 true)
    [Tree.node (mkData "a" (some "r") (some "Conceptual Blend") 2 1 1 1 false) [],
     prune_c]

theorem prune_child_inner : prune_child [prune_b] "b" = some [] := by
  rw [show (prune_b : Tree) =
    Tree.node (mkData "b" (some "a") none 1 (1/2) 2 1 false) [] from rfl]
  rw [prune_child]
  rw [if_pos (by rfl)]

theorem prune_child_outer :
    prune_child [prune_a, prune_c] "b" =
      some [Tree.node
        (mkData "a" (some "r") (some "Conceptual Blend") 2 1 1 1 false) [],
        prune_c] := by
  rw [show (prune_a : Tree) = Tree.node
    (mkData "a" (some "r") (some "Conceptual Blend") 2 1 1 1 false) [prune_b]
    from rfl]
  rw [prune_child]
  rw [if_neg (by decide)]
  rw [prune_child_inner]

theorem prune_root_eval :
    prune_node_by_id prune_root "b" = (true, prune_root_after) := by
  rw [prune_node_by_id]
  rw [show (prune_root : Tree).children = [prune_a, prune_c] from rfl]
  rw [prune_child_outer]
  rw [if_neg (by decide)]
  rfl

theorem C10_prune_frame_witness :
    prune_node_by_id prune_root "b" = (true, prune_root_after) ∧
    (flatten prune_root_after).Sublist (flatten prune_root) :=
  ⟨prune_root_eval,
    C10_prune_frame prune_root "b" prune_root_after prune_root_eval⟩

theorem reparent_eq_self_some (d : NodeData) (pid : String) (k : Nat)
    (h1 : d.parent_id = some pid) (h2 : d.child_number = k + 1) :
    reparent d (some pid) k = d := by
  show { d with parent_id := some pid, child_number := k + 1 } = d
  rw [← h2, ← h1]

theorem reparent_eq_self_none (d : NodeData) (k : Nat)
    (h1 : d.parent_id = none) (h2 : d.child_number = 0) :
    reparent d none k = d := by
  show { d with parent_id := none, child_number := 0 } = d
  rw [← h2, ← h1]

theorem load_save_forest (cs : List Tree) : ∀ (pid : String) (k : Nat),
    wf_forest pid k cs = true → load_forest pid k (save_forest cs) = cs := by
  induction cs using save_forest.induct with
  | case1 =>
    intro pid k _
    simp [save_forest, load_forest]
  | case2 d cs rest ihcs ihrest =>
    intro pid k h
    rw [wf_forest] at h
    simp only [Bool.and_eq_true, decide_eq_true_eq] at h
    obtain ⟨⟨⟨hpid, hcn⟩, hcs⟩, hrest⟩ := h
    rw [save_forest, load_forest]
    rw [ihcs d.id 0 hcs, ihrest pid (k + 1) hrest]
    rw [reparent_eq_self_some d pid k hpid hcn]

/-- A node with a non-canonical child_number, as left behind by pruning an
earlier sibling: the stored child_number is 2 although the node now sits
first in its parent's children list. -/
def bad_child : Tree :=
  Tree.node (mkData "c" (some "r") (some "Perspective Shift") 1 (1/2) 1 2 false) []

def bad_tree : Tree :=
  Tree.node (mkData "r" none none 1 (1/2) 0 0 true) [bad_child]

/-- Claim C3 (counterexample): round-tripping is claimed lossless for every
tree and every attribute, child_number included. It is not: load recomputes
child_number through the Node constructor from the append position, so
bad_tree (whose only child carries child_number 2 after an earlier sibling
was pruned) comes back with child_number 1. -/
theorem C3_roundtrip_counterexample :
    load_tree (save_tree bad_tree) ≠ bad_tree := by
  intro h
  have h1 : (flatten (load_tree (save_tree bad_tree))).map
      NodeData.child_number = [0, 1] := by
    simp [bad_tree, bad_child, mkData, save_tree, save_forest, load_tree,
      load_forest, reparent, flatten, flatten_forest]
  rw [h] at h1
  have h2 : (flatten bad_tree).map NodeData.child_number = [0, 2] := by
    simp [bad_tree, bad_child, mkData, flatten, flatten_forest]
  rw [h2] at h1
  exact absurd h1 (by decide)

/-- Claim C3 (amended): deserializing the serialization of a tree preserves
the topology and every attribute except parent_id and child_number, which
the loader recomputes from the tree structure (parent_id becomes the actual
parent's id, child_number the 1-based append position, 0 at the root); in
particular for every tree whose parent_id and child_number already carry
those canonical creation-time values — every tree the controller builds, as
long as no pruning occurred — the round trip is the identity. -/
theorem C3_roundtrip_canonical (t : Tree) (h : wf_tree t = true) :
    load_tree (save_tree t) = t := by
  obtain ⟨d, cs⟩ := t
  rw [wf_tree] at h
  simp only [Bool.and_eq_true, decide_eq_true_eq] at h
  obtain ⟨⟨hpid, hcn⟩, hforest⟩ := h
  rw [save_tree, load_tree]
  rw [load_save_forest cs d.id 0 hforest]
  rw [reparent_eq_self_none d 0 hpid hcn]

def good_child : Tree :=
  Tree.node (mkData "c" (some "r") (some "Perspective Shift") 1 (1/2) 1 1 false) []

def good_tree : Tree :=
  Tree.node (mkData "r" none none 1 (1/2) 0 0 true) [good_child]

theorem C3_roundtrip_canonical_witness :
    wf_tree good_tree = true ∧ load_tree (save_tree good_tree) = good_tree :=
  ⟨by simp [wf_tree, wf_forest, good_tree, good_child, mkData],
    C3_roundtrip_canonical good_tree
      (by simp [wf_tree, wf_forest, good_tree, good_child, mkData])⟩

end AIBrainstorm
